import Mathlib

/-!
Shallow embedding of the `iron-vault` password-vault library
(`src/core/{keys,storage,vault,record}.rs`) for checking its specification.

Conventions of the embedding:
* Rust byte buffers (`Vec<u8>`, `&[u8]`) are `List Nat`.  All bytes the
  program actually materialises are `< 256`; values produced by the symbolic
  cryptography below may exceed 255, which only widens the byte alphabet and
  never changes lengths or control flow.
* Fallible Rust code returns `Outcome ε α`: `ok`, `err` (a returned
  `Err(...)`), or `panicked msg` (a Rust `panic!`, `expect`, `assert!`, or
  out-of-bounds slice).
* External libraries (`ring`'s AEAD / PBKDF2 / RNG, `serde_json`, the
  standard library's `DefaultHasher`) are modelled at their documented
  interface contracts; each such definition carries a doc comment saying so.
  Everything else is translated line-by-line from the Rust source.
-/

/-- Result of running a piece of Rust code: a returned value, a returned
error, or a panic (carrying the panic/expect message). -/
inductive Outcome (ε α : Type) where
  | ok : α → Outcome ε α
  | err : ε → Outcome ε α
  | panicked : String → Outcome ε α
deriving Repr, DecidableEq

namespace ByteEnc

/-- Little-endian positional value of a byte list (base 256). -/
def radixVal (l : List Nat) : Nat :=
  l.foldr (fun b acc => acc * 256 + b) 0

/-- Injective encoding of a byte list (entries `< 256`) into one natural
number: the pair of its length and its base-256 positional value. -/
def bytesToNat (l : List Nat) : Nat :=
  Nat.pair l.length (radixVal l)

/-- Digits of `v` in base 256, `len` of them (little-endian). -/
def natDigits : Nat → Nat → List Nat
  | 0, _ => []
  | len + 1, v => v % 256 :: natDigits len (v / 256)

/-- Inverse of `bytesToNat` on lists of genuine bytes. -/
def natToBytes (n : Nat) : List Nat :=
  natDigits (Nat.unpair n).1 (Nat.unpair n).2

theorem radixVal_cons (b : Nat) (l : List Nat) :
    radixVal (b :: l) = radixVal l * 256 + b := rfl

theorem natDigits_radixVal (l : List Nat) (hb : ∀ b ∈ l, b < 256) :
    natDigits l.length (radixVal l) = l := by
  induction l with
  | nil => rfl
  | cons b l ih =>
      have hblt : b < 256 := hb b (List.mem_cons_self b l)
      have hrest : ∀ x ∈ l, x < 256 := fun x hx => hb x (List.mem_cons_of_mem _ hx)
      simp only [List.length_cons, natDigits, radixVal_cons, List.cons.injEq]
      constructor
      · omega
      · have hmod : (radixVal l * 256 + b) / 256 = radixVal l := by
          omega
        rw [hmod, ih hrest]

theorem natToBytes_bytesToNat (l : List Nat) (hb : ∀ b ∈ l, b < 256) :
    natToBytes (bytesToNat l) = l := by
  unfold natToBytes bytesToNat
  rw [Nat.unpair_pair]
  exact natDigits_radixVal l hb

/-- Positional value of a string's characters (base `0x110000`, which bounds
every Unicode scalar value). -/
def strVal (l : List Char) : Nat :=
  l.foldr (fun c acc => acc * 1114112 + c.toNat) 0

/-- Injective encoding of a string into one natural number. -/
def strToNat (s : String) : Nat :=
  Nat.pair s.data.length (strVal s.data)

theorem char_toNat_lt (c : Char) : c.toNat < 1114112 := by
  have h := c.valid
  rcases h with h | h
  · have : c.val.toNat < 55296 := h
    simpa [Char.toNat] using this.trans (by norm_num)
  · have : c.val.toNat < 1114112 := h.2
    simpa [Char.toNat] using this

theorem char_toNat_inj {a b : Char} (h : a.toNat = b.toNat) : a = b := by
  have hv : a.val = b.val := UInt32.ext h
  cases a; cases b
  simp_all

theorem strVal_inj : ∀ {l₁ l₂ : List Char}, l₁.length = l₂.length →
    strVal l₁ = strVal l₂ → l₁ = l₂ := by
  intro l₁
  induction l₁ with
  | nil =>
      intro l₂ hlen _
      cases l₂ with
      | nil => rfl
      | cons _ _ => simp at hlen
  | cons c l ih =>
      intro l₂ hlen hval
      cases l₂ with
      | nil => simp at hlen
      | cons d m =>
          have hc : c.toNat < 1114112 := char_toNat_lt c
          have hd : d.toNat < 1114112 := char_toNat_lt d
          have hv : strVal l * 1114112 + c.toNat = strVal m * 1114112 + d.toNat := hval
          have hcd : c.toNat = d.toNat := by omega
          have hlm : strVal l = strVal m := by omega
          have hlen' : l.length = m.length := by simpa using hlen
          rw [char_toNat_inj hcd, ih hlen' hlm]

theorem strToNat_inj {s t : String} (h : strToNat s = strToNat t) : s = t := by
  unfold strToNat at h
  have h' := Nat.pair_eq_pair.mp h
  have hdata : s.data = t.data := strVal_inj h'.1 h'.2
  cases s; cases t
  exact congrArg String.mk hdata

end ByteEnc

namespace SipHash

/-- Modelled from the standard library: Rust's `DefaultHasher` is
SipHash-1-3 with both keys zero.  The state is four 64-bit words, kept here
as naturals that every operation reduces modulo `2 ^ 64`. -/
structure SipState where
  v0 : Nat
  v1 : Nat
  v2 : Nat
  v3 : Nat
deriving Repr, DecidableEq

def M64 : Nat := 18446744073709551616

/-- Left rotation of a 64-bit word. -/
def rotl (x r : Nat) : Nat :=
  (x * 2 ^ r + x / 2 ^ (64 - r)) % M64

/-- One SipHash round (the `SIPROUND` permutation). -/
def sipround (s : SipState) : SipState :=
  let v0 := (s.v0 + s.v1) % M64
  let v1 := rotl s.v1 13
  let v1 := v1 ^^^ v0
  let v0 := rotl v0 32
  let v2 := (s.v2 + s.v3) % M64
  let v3 := rotl s.v3 16
  let v3 := v3 ^^^ v2
  let v0 := (v0 + v3) % M64
  let v3 := rotl v3 21
  let v3 := v3 ^^^ v0
  let v2 := (v2 + v1) % M64
  let v1 := rotl v1 17
  let v1 := v1 ^^^ v2
  let v2 := rotl v2 32
  ⟨v0, v1, v2, v3⟩

/-- Little-endian 64-bit value of at most eight bytes. -/
def le64 (bs : List Nat) : Nat :=
  bs.foldr (fun b acc => acc * 256 + b) 0

/-- Compression step of SipHash-1-3: one round per message word. -/
def sipCompress (s : SipState) (m : Nat) : SipState :=
  let s := { s with v3 := s.v3 ^^^ m }
  let s := sipround s
  { s with v0 := s.v0 ^^^ m }

/-- Consume the message eight bytes at a time; return the final state and
the remaining tail of fewer than eight bytes. -/
def sipBlocks : SipState → List Nat → SipState × List Nat
  | s, b0 :: b1 :: b2 :: b3 :: b4 :: b5 :: b6 :: b7 :: rest =>
      sipBlocks (sipCompress s (le64 [b0, b1, b2, b3, b4, b5, b6, b7])) rest
  | s, tail => (s, tail)

/-- SipHash-1-3 with zero keys over a byte message, as Rust's
`DefaultHasher` computes it (one compression round, three finalization
rounds, finalization constant `0xff`). -/
def siphash13 (msg : List Nat) : Nat :=
  let s0 : SipState :=
    ⟨0x736f6d6570736575, 0x646f72616e646f6d, 0x6c7967656e657261, 0x7465646279746573⟩
  let (s, tail) := sipBlocks s0 msg
  let b := (msg.length % 256) * 72057594037927936 + le64 tail
  let s := { s with v3 := s.v3 ^^^ b }
  let s := sipround s
  let s := { s with v0 := s.v0 ^^^ b }
  let s := { s with v2 := s.v2 ^^^ 255 }
  let s := sipround (sipround (sipround s))
  s.v0 ^^^ s.v1 ^^^ s.v2 ^^^ s.v3

/-- UTF-8 encoding of one Unicode scalar value. -/
def utf8Bytes (c : Nat) : List Nat :=
  if c < 128 then [c]
  else if c < 2048 then [192 + c / 64, 128 + c % 64]
  else if c < 65536 then [224 + c / 4096, 128 + c / 64 % 64, 128 + c % 64]
  else [240 + c / 262144, 128 + c / 4096 % 64, 128 + c / 64 % 64, 128 + c % 64]

/-- UTF-8 bytes of a string. -/
def strBytes (s : String) : List Nat :=
  (s.data.map (fun c => utf8Bytes c.toNat)).flatten

/-- Modelled from the standard library: `Hash for str` feeds the UTF-8
bytes followed by a single `0xff` byte into the hasher, and
`DefaultHasher::finish` returns the 64-bit SipHash-1-3 value. -/
def defaultHash (s : String) : Nat :=
  siphash13 (strBytes s ++ [255])

example : defaultHash "a" = 8186225505942432243 := by decide
example : defaultHash "abl" = 8362034487074096816 := by decide

end SipHash

namespace IronVault

open ByteEnc

/-- The error enum of `src/core/storage.rs` (`StorageError`).  Payload-
carrying variants (`StringError`, `FileError`, `SerializationError`) drop
their wrapped cause, which no claim inspects. -/
inductive StorageError where
  | keyLengthError
  | keyError
  | nonceGenerationError
  | decryptionError
  | encryptionError
  | stringError
  | fileError
  | serializationError
deriving Repr, DecidableEq

/-- The error enum of `src/core/keys.rs` (`KeyError`). -/
inductive KeyError where
  | keyGenerationError
  | saltGenerationError
  | saltLengthError
deriving Repr, DecidableEq

/-- The error enum of `src/core/vault.rs` (`VaultError`).  Wrapped causes
that no claim inspects are dropped from the serialization/file variants. -/
inductive VaultError where
  | keyError : KeyError → VaultError
  | configurationSerializationError
  | configurationFileError
  | vaultStorageError : StorageError → VaultError
  | vaultAlreadyExists
  | vaultGenerationError
deriving Repr, DecidableEq

/-- The ambient state a run of the program interacts with: the filesystem
(file contents keyed by path, plus the set of existing directories), the
process environment, the home directory, and a counter that indexes
successive draws from the system RNG. -/
structure World where
  files : List (String × List Nat)
  dirs : List String
  env : List (String × String)
  home : Option String
  seed : Nat
deriving Repr, DecidableEq

/-- Contents of the file at `p`, if it exists. -/
def fsRead (files : List (String × List Nat)) (p : String) : Option (List Nat) :=
  (files.find? (fun e => e.1 = p)).map Prod.snd

/-- Create-or-truncate `p` and write `b` (Rust `File::create` + `write_all`). -/
def fsWrite (files : List (String × List Nat)) (p : String) (b : List Nat) :
    List (String × List Nat) :=
  (p, b) :: files.filter (fun e => e.1 ≠ p)

/-- Value of environment variable `k` (Rust `env::var`, which succeeds for
any set variable, including one set to the empty string). -/
def envVar (env : List (String × String)) (k : String) : Option String :=
  (env.find? (fun e => e.1 = k)).map Prod.snd

/-- Modelled from `ring::rand::SystemRandom`: the `i`-th draw of `n` random
bytes.  The contents are arbitrary deterministic bytes; only their length
and freshness matter to the program. -/
def randBytes (seed n : Nat) : List Nat :=
  (List.range n).map (fun i => Nat.pair seed i % 256)

theorem randBytes_length (seed n : Nat) : (randBytes seed n).length = n := by
  simp [randBytes]

theorem randBytes_lt (seed n : Nat) : ∀ b ∈ randBytes seed n, b < 256 := by
  intro b hb
  simp only [randBytes, List.mem_map] at hb
  obtain ⟨i, _, rfl⟩ := hb
  exact Nat.mod_lt _ (by norm_num)

/-- The static data of a `ring::aead::Algorithm`. -/
structure Algorithm where
  key_len : Nat
  nonce_len : Nat
  tag_len : Nat
deriving Repr, DecidableEq

/-- `ring::aead::CHACHA20_POLY1305`: 32-byte key, 12-byte nonce, 16-byte tag. -/
def CHACHA20_POLY1305 : Algorithm := ⟨32, 12, 16⟩

/-- Modelled from `ring`'s AEAD: a deterministic keystream tied to the key
and nonce, mixed into every ciphertext byte. -/
def aeadKeystream (key nonce : List Nat) : Nat :=
  Nat.pair (bytesToNat key) (bytesToNat nonce)

/-- Modelled from `ring`'s AEAD seal: symbolic encryption, one ciphertext
byte per plaintext byte (length-preserving, as CHACHA20 is). -/
def aeadEncrypt (key nonce pt : List Nat) : List Nat :=
  pt.map (fun b => Nat.pair b (aeadKeystream key nonce))

/-- Modelled from `ring`'s AEAD open: exact inverse of `aeadEncrypt` under
the same key and nonce. -/
def aeadDecrypt (key nonce ct : List Nat) : List Nat :=
  ct.map (fun b => (Nat.unpair b).1)

theorem aeadDecrypt_aeadEncrypt (key nonce pt : List Nat) :
    aeadDecrypt key nonce (aeadEncrypt key nonce pt) = pt := by
  unfold aeadDecrypt aeadEncrypt
  rw [List.map_map]
  simp [Function.comp_def, Nat.unpair_pair]

theorem aeadEncrypt_length (key nonce pt : List Nat) :
    (aeadEncrypt key nonce pt).length = pt.length := by
  simp [aeadEncrypt]

/-- Modelled from `ring`'s AEAD: the authentication tag, `tag_len` bytes
determined by key, nonce and ciphertext (with empty associated data).  Its
first byte packs the whole triple injectively, giving the ideal-MAC
property: tags computed under different keys differ. -/
def aeadTag (tag_len : Nat) (key nonce ct : List Nat) : List Nat :=
  Nat.pair (bytesToNat key) (Nat.pair (bytesToNat nonce) (bytesToNat ct))
    :: List.replicate (tag_len - 1) 0

theorem aeadTag_length (t : Nat) (key nonce ct : List Nat) (ht : 0 < t) :
    (aeadTag t key nonce ct).length = t := by
  simp [aeadTag]
  omega

/-- Modelled from `ring::aead::seal_in_place(key, nonce, ad, in_out,
out_suffix_capacity)`: requires a nonce of the algorithm's nonce length and
at least `tag_len` spare bytes at the end of `in_out`; encrypts the prefix
in place, writes the tag after it, and returns the sealed length. -/
def seal_in_place (algorithm : Algorithm) (key nonce : List Nat)
    (in_out : List Nat) (out_suffix_capacity : Nat) :
    Except Unit (Nat × List Nat) :=
  if nonce.length ≠ algorithm.nonce_len then .error ()
  else if in_out.length < out_suffix_capacity ∨ out_suffix_capacity < algorithm.tag_len
    then .error ()
  else
    let pt := in_out.take (in_out.length - out_suffix_capacity)
    let ct := aeadEncrypt key nonce pt
    let tag := aeadTag algorithm.tag_len key nonce ct
    .ok (pt.length + algorithm.tag_len, ct ++ tag)

/-- Modelled from `ring::aead::open_in_place(key, nonce, ad, in_prefix_len,
in_out)`: fails unless the nonce has the right length and `in_out` holds at
least `in_prefix_len + tag_len` bytes; verifies the tag over the ciphertext
between prefix and tag and, on success, returns the decrypted plaintext. -/
def open_in_place (algorithm : Algorithm) (key nonce : List Nat)
    (in_prefix_len : Nat) (in_out : List Nat) : Except Unit (List Nat) :=
  if nonce.length ≠ algorithm.nonce_len then .error ()
  else if in_out.length < in_prefix_len + algorithm.tag_len then .error ()
  else
    let ct_and_tag := in_out.drop in_prefix_len
    let ct := ct_and_tag.take (ct_and_tag.length - algorithm.tag_len)
    let tag := ct_and_tag.drop (ct_and_tag.length - algorithm.tag_len)
    if tag = aeadTag algorithm.tag_len key nonce ct then
      .ok (aeadDecrypt key nonce ct)
    else .error ()

/-- `verify_key_len` from `src/core/storage.rs`. -/
def verify_key_len (algorithm : Algorithm) (key : List Nat) :
    Except StorageError Unit :=
  if algorithm.key_len ≠ key.length then .error .keyLengthError
  else .ok ()

/-- `generate_nonce` from `src/core/storage.rs`: `nonce_len` fresh bytes
from the system RNG (whose failure, mapped to `NonceGenerationError`, the
RNG model never exhibits). -/
def generate_nonce (algorithm : Algorithm) (seed : Nat) :
    Except StorageError (List Nat) :=
  .ok (randBytes seed algorithm.nonce_len)

/-- `append_tag_storage` from `src/core/storage.rs`: extend the buffer by
`tag_len` zero bytes. -/
def append_tag_storage (plaintext : List Nat) (algorithm : Algorithm) : List Nat :=
  plaintext ++ List.replicate algorithm.tag_len 0

/-- `open_data` from `src/core/storage.rs` (lines 327-348).  The slice
expression `data[..nonce_len]` panics when the buffer is shorter than the
nonce; that panic is modelled explicitly. -/
def open_data (data : List Nat) (key : List Nat) (algorithm : Algorithm) :
    Outcome StorageError (List Nat) :=
  let nonce_len := algorithm.nonce_len
  match verify_key_len algorithm key with
  | .error e => .err e
  | .ok _ =>
    -- aead::OpeningKey::new fails only for a wrong key length, checked above
    if data.length < nonce_len then
      .panicked "range end index out of range for slice"
    else
      let nonce := data.take nonce_len
      match open_in_place algorithm key nonce nonce_len data with
      | .error _ => .err .decryptionError
      | .ok plaintext => .ok plaintext

/-- `seal_data` from `src/core/storage.rs` (lines 350-377). -/
def seal_data (data : List Nat) (key : List Nat) (algorithm : Algorithm)
    (seed : Nat) : Outcome StorageError (List Nat) :=
  let nonce_len := algorithm.nonce_len
  let tag_len := algorithm.tag_len
  match verify_key_len algorithm key with
  | .error e => .err e
  | .ok _ =>
    -- aead::SealingKey::new fails only for a wrong key length, checked above
    match generate_nonce algorithm seed with
    | .error e => .err e
    | .ok nonce =>
      let data1 := append_tag_storage data algorithm
      match seal_in_place algorithm key nonce data1 tag_len with
      | .error _ => .err .encryptionError
      | .ok (ciphertext_len, sealed) =>
        let data2 := nonce ++ sealed
        let encrypted_len := nonce_len + ciphertext_len
        .ok (data2.take encrypted_len)

/-- `read_plaintext` from `src/core/storage.rs`: read a whole file. -/
def read_plaintext (files : List (String × List Nat)) (path : String) :
    Outcome StorageError (List Nat) :=
  match fsRead files path with
  | none => .err .fileError
  | some buffer => .ok buffer

/-- `write_plaintext` from `src/core/storage.rs`: create/truncate the file
and write the buffer (file-creation failure is not modelled). -/
def write_plaintext (files : List (String × List Nat)) (path : String)
    (buf : List Nat) : Outcome StorageError Unit × List (String × List Nat) :=
  (.ok (), fsWrite files path buf)

/-- `read_encrypted` from `src/core/storage.rs` (lines 293-301). -/
def read_encrypted (path : String) (key : List Nat) (algorithm : Algorithm)
    (w : World) : Outcome StorageError (List Nat) :=
  match read_plaintext w.files path with
  | .err e => .err e
  | .panicked m => .panicked m
  | .ok buffer => open_data buffer key algorithm

/-- `write_encrypted` from `src/core/storage.rs` (lines 314-325): seal the
buffer (drawing one nonce from the RNG), then write the sealed bytes. -/
def write_encrypted (path : String) (buf : List Nat) (key : List Nat)
    (algorithm : Algorithm) (w : World) :
    Outcome StorageError Unit × World :=
  match seal_data buf key algorithm w.seed with
  | .err e => (.err e, { w with seed := w.seed + 1 })
  | .panicked m => (.panicked m, { w with seed := w.seed + 1 })
  | .ok ciphertext =>
    match write_plaintext w.files path ciphertext with
    | (.ok _, files') => (.ok (), { w with files := files', seed := w.seed + 1 })
    | (.err e, files') => (.err e, { w with files := files', seed := w.seed + 1 })
    | (.panicked m, files') => (.panicked m, { w with files := files', seed := w.seed + 1 })

/-- The `EncryptedStorage` struct of `src/core/storage.rs`. -/
structure EncryptedStorage where
  path : String
  key : List Nat
  algorithm : Algorithm
deriving Repr, DecidableEq

namespace EncryptedStorage

/-- `EncryptedStorage::new`: always the CHACHA20_POLY1305 algorithm. -/
def new (path : String) (key : List Nat) : EncryptedStorage :=
  ⟨path, key, CHACHA20_POLY1305⟩

/-- `EncryptedStorage::read` (`Storage::read` instance). -/
def read (s : EncryptedStorage) (w : World) : Outcome StorageError (List Nat) :=
  read_encrypted s.path s.key s.algorithm w

/-- `EncryptedStorage::write` (`Storage::write` instance). -/
def write (s : EncryptedStorage) (buffer : List Nat) (w : World) :
    Outcome StorageError Unit × World :=
  write_encrypted s.path buffer s.key s.algorithm w

/-- `Storage::read_string`: read, then interpret the bytes as a string
(the byte/string distinction is collapsed in this embedding, so the UTF-8
validation step cannot fail). -/
def read_string (s : EncryptedStorage) (w : World) : Outcome StorageError (List Nat) :=
  s.read w

/-- `Storage::write_string`. -/
def write_string (s : EncryptedStorage) (data : List Nat) (w : World) :
    Outcome StorageError Unit × World :=
  s.write data w

end EncryptedStorage

end IronVault

namespace IronVault

open ByteEnc

/-- `SALT_LEN` from `src/core/keys.rs`. -/
def SALT_LEN : Nat := 16

/-- `ITERATIONS_BASE_COUNT` from `src/core/keys.rs`. -/
def ITERATIONS_BASE_COUNT : Nat := 100000

/-- `ITERATIONS_EXTENSION_COUNT` from `src/core/keys.rs`. -/
def ITERATIONS_EXTENSION_COUNT : Nat := 10000

/-- `generate_key` from `src/core/keys.rs`: `key_len` fresh random bytes
(the RNG model never fails, so `KeyGenerationError` does not occur). -/
def generate_key (algorithm : Algorithm) (seed : Nat) :
    Except KeyError (List Nat) :=
  .ok (randBytes seed algorithm.key_len)

/-- `generate_salt` from `src/core/keys.rs`: 16 fresh random bytes. -/
def generate_salt (seed : Nat) : Except KeyError (List Nat) :=
  .ok (randBytes seed SALT_LEN)

/-- `iterations` from `src/core/keys.rs` (lines 66-80): hash the password
with `DefaultHasher`, truncate to 32 bits (`as u32`), add
`hash % 10_000` extra iterations to the base count, then
`assert!(iterations > ITERATIONS_BASE_COUNT)`.  `none` models the panic of
a failed assert (which happens exactly when the truncated hash is a
multiple of 10 000). -/
def iterations (password : String) : Option Nat :=
  let hash := SipHash.defaultHash password % 4294967296
  let iteration_extensions := hash % ITERATIONS_EXTENSION_COUNT
  let iters := ITERATIONS_BASE_COUNT + iteration_extensions
  if ITERATIONS_BASE_COUNT < iters then some iters else none

/-- A `ring::digest` algorithm tag (only SHA-256 is used). -/
structure DigestAlg where
  id : Nat
deriving Repr, DecidableEq

/-- `ring::digest::SHA256`. -/
def SHA256 : DigestAlg := ⟨256⟩

/-- Modelled from `ring::pbkdf2::derive` (PRF = HMAC of `digest`): a
deterministic key of `out_len` bytes.  The first byte packs digest,
iteration count, salt and secret injectively, modelling the ideal-PRF
property that distinct inputs yield distinct keys. -/
def pbkdf2_derive (digest : DigestAlg) (iters : Nat) (salt : List Nat)
    (secret : String) (out_len : Nat) : List Nat :=
  match out_len with
  | 0 => []
  | n + 1 =>
      Nat.pair digest.id (Nat.pair iters (Nat.pair (bytesToNat salt) (strToNat secret)))
        :: List.replicate n 0

/-- `derive_key` from `src/core/keys.rs` (lines 36-51): reject salts of at
most four bytes, then run PBKDF2-HMAC-SHA256 for `iterations password`
rounds into a buffer of `key_len` bytes.  The call to `iterations` panics
for passwords whose truncated hash is a multiple of 10 000. -/
def derive_key (algorithm : Algorithm) (salt : List Nat) (password : String) :
    Outcome KeyError (List Nat) :=
  if salt.length ≤ 4 then .err .saltLengthError
  else
    match iterations password with
    | none => .panicked "assertion failed: iterations > ITERATIONS_BASE_COUNT"
    | some iters => .ok (pbkdf2_derive SHA256 iters salt password algorithm.key_len)

/-- `RecordKind` from `src/core/record.rs`. -/
inductive RecordKind where
  | login
deriving Repr, DecidableEq

/-- The `Record` struct of `src/core/record.rs` (the `HashMap` of entries
is carried as an association list). -/
structure Record where
  uuid : String
  name : String
  kind : RecordKind
  entries : List (String × String)
deriving Repr, DecidableEq

def kindToNat : RecordKind → Nat
  | .login => 0

def entryToNat (e : String × String) : Nat :=
  Nat.pair (strToNat e.1) (strToNat e.2)

def entriesToNat (l : List (String × String)) : Nat :=
  l.foldr (fun e acc => Nat.pair (entryToNat e) acc + 1) 0

/-- Modelled from serde_json: injective serialization of one `Record`
into a single number. -/
def recordToNat (r : Record) : Nat :=
  Nat.pair (strToNat r.uuid)
    (Nat.pair (strToNat r.name) (Nat.pair (kindToNat r.kind) (entriesToNat r.entries)))

/-- Modelled from serde_json: serialization of a `Vec<Record>`, one number
per record. -/
def recordsToJson (rs : List Record) : List Nat :=
  rs.map recordToNat

/-- Characters of the inverse of `strToNat`. -/
def strDigits : Nat → Nat → List Char
  | 0, _ => []
  | len + 1, v => Char.ofNat (v % 1114112) :: strDigits len (v / 1114112)

/-- Inverse of `strToNat`. -/
def natToStr (n : Nat) : String :=
  String.mk (strDigits (Nat.unpair n).1 (Nat.unpair n).2)

/-- Inverse of `entriesToNat`. -/
def natToEntries : Nat → List (String × String)
  | 0 => []
  | n + 1 =>
      let p := Nat.unpair n
      let e := Nat.unpair p.1
      (natToStr e.1, natToStr e.2) :: natToEntries p.2
decreasing_by
  exact Nat.lt_succ_of_le (Nat.unpair_right_le n)

/-- Modelled from serde_json: deserialization of one `Record`; an unknown
`kind` tag is a deserialization error. -/
def recordFromNat (n : Nat) : Option Record :=
  let p1 := Nat.unpair n
  let p2 := Nat.unpair p1.2
  let p3 := Nat.unpair p2.2
  if p3.1 = 0 then
    some ⟨natToStr p1.1, natToStr p2.1, .login, natToEntries p3.2⟩
  else none

/-- Modelled from serde_json: deserialization of a `Vec<Record>`. -/
def recordsFromJson (bs : List Nat) : Option (List Record) :=
  bs.mapM recordFromNat

end IronVault

namespace IronVault

open ByteEnc

/-- `ENVIRONMENT_KEY` from `src/core/vault.rs`. -/
def ENVIRONMENT_KEY : String := "IRONVAULT_DATABASE"

/-- `DEFAULT_DATABASE_PATH` from `src/core/vault.rs`. -/
def DEFAULT_DATABASE_PATH : String := "/.ironvault/"

/-- The `Configuration` struct of `src/core/vault.rs`. -/
structure Configuration where
  salt : List Nat
deriving Repr, DecidableEq

namespace Configuration

/-- `Configuration::to_json`.  Modelled from serde_json: the JSON document
is the salt, framed injectively as a single number (serialization of this
struct cannot fail). -/
def to_json (c : Configuration) : List Nat :=
  [bytesToNat c.salt]

/-- `Configuration::from_json`.  Modelled from serde_json: inverse of
`to_json`; anything else is a deserialization error. -/
def from_json (json : List Nat) : Outcome VaultError Configuration :=
  match json with
  | [n] => .ok ⟨natToBytes n⟩
  | _ => .err .configurationSerializationError

/-- `Configuration::save_to`: create the file and write the JSON (the
`File::create` failure path is not modelled). -/
def save_to (c : Configuration) (path : String) (w : World) :
    Outcome VaultError Unit × World :=
  (.ok (), { w with files := fsWrite w.files path (c.to_json) })

/-- `Configuration::from_file`: read the file (an `io::Error` becomes
`ConfigurationFileError` through the `From` impl), then parse. -/
def from_file (path : String) (w : World) : Outcome VaultError Configuration :=
  match fsRead w.files path with
  | none => .err .configurationFileError
  | some json => from_json json

end Configuration

/-- The `Vault` struct of `src/core/vault.rs` (lines 53-60). -/
structure Vault where
  path : String
  _configuration : Configuration
  record_storage : EncryptedStorage
  _key_storage : EncryptedStorage
  records : List Record
deriving Repr, DecidableEq

/-- `vault_path` from `src/core/vault.rs`: `PathBuf::push` of one file name
onto the vault directory. -/
def vault_path (base_path : String) (path : String) : String :=
  base_path ++ "/" ++ path

/-- `encrypted_key_path` from `src/core/vault.rs`. -/
def encrypted_key_path (path : String) : String :=
  vault_path path "key"

/-- `storage_path` from `src/core/vault.rs`. -/
def storage_path (path : String) : String :=
  vault_path path "storage"

/-- `config_path` from `src/core/vault.rs`. -/
def config_path (path : String) : String :=
  vault_path path "config"

/-- `determine_vault_path` from `src/core/vault.rs` (lines 159-174):
explicit argument first, then the `IRONVAULT_DATABASE` environment variable
whenever `env::var` succeeds (it succeeds for any set variable, empty or
not), then the home directory with `/.ironvault/` appended — panicking via
`expect` when there is no home directory. -/
def determine_vault_path (path : Option String) (env : List (String × String))
    (home : Option String) : Outcome VaultError String :=
  match path with
  | some p => .ok p
  | none =>
    match envVar env ENVIRONMENT_KEY with
    | some v => .ok v
    | none =>
      match home with
      | some home_dir => .ok (home_dir ++ DEFAULT_DATABASE_PATH)
      | none => .panicked "Failed to find the home directory"

/-- `create_vault_directory` from `src/core/vault.rs` (lines 176-184):
resolve the path, fail with `VaultAlreadyExists` if it exists, otherwise
create it (the `create_dir_all` failure path mapped to
`VaultGenerationError` is not modelled). -/
def create_vault_directory (path : Option String) (w : World) :
    Outcome VaultError String × World :=
  match determine_vault_path path w.env w.home with
  | .panicked m => (.panicked m, w)
  | .err e => (.err e, w)
  | .ok p =>
    if p ∈ w.dirs then (.err .vaultAlreadyExists, w)
    else (.ok p, { w with dirs := p :: w.dirs })

/-- `create_vault_configuration` from `src/core/vault.rs`: a fresh salt
wrapped in a `Configuration`. -/
def create_vault_configuration (w : World) :
    Outcome VaultError Configuration × World :=
  (.ok ⟨randBytes w.seed SALT_LEN⟩, { w with seed := w.seed + 1 })

namespace Vault

/-- `Vault::create` from `src/core/vault.rs` (lines 63-91), with the
`?`-propagation of each step written out: directory creation, salt and
configuration write, passphrase-key derivation, data-key generation, the
wrapped-key write, and the empty-records write. -/
def create (password : String) (path : Option String) (w : World) :
    Outcome VaultError Vault × World :=
  let algorithm := CHACHA20_POLY1305
  match create_vault_directory path w with
  | (.err e, w1) => (.err e, w1)
  | (.panicked m, w1) => (.panicked m, w1)
  | (.ok p, w1) =>
    match create_vault_configuration w1 with
    | (.err e, w2) => (.err e, w2)
    | (.panicked m, w2) => (.panicked m, w2)
    | (.ok config, w2) =>
      match config.save_to (config_path p) w2 with
      | (.err e, w3) => (.err e, w3)
      | (.panicked m, w3) => (.panicked m, w3)
      | (.ok _, w3) =>
        match derive_key algorithm config.salt password with
        | .err e => (.err (.keyError e), w3)
        | .panicked m => (.panicked m, w3)
        | .ok password_key =>
          let encryption_key_storage :=
            EncryptedStorage.new (encrypted_key_path p) password_key
          match generate_key algorithm w3.seed with
          | .error e => (.err (.keyError e), w3)
          | .ok encryption_key =>
            let w4 := { w3 with seed := w3.seed + 1 }
            match encryption_key_storage.write encryption_key w4 with
            | (.err e, w5) => (.err (.vaultStorageError e), w5)
            | (.panicked m, w5) => (.panicked m, w5)
            | (.ok _, w5) =>
              let records : List Record := []
              let record_storage :=
                EncryptedStorage.new (storage_path p) encryption_key
              let json := recordsToJson records
              match record_storage.write json w5 with
              | (.err e, w6) => (.err (.vaultStorageError e), w6)
              | (.panicked m, w6) => (.panicked m, w6)
              | (.ok _, w6) =>
                (.ok ⟨p, config, record_storage, encryption_key_storage, records⟩, w6)

/-- `Vault::open` from `src/core/vault.rs` (lines 93-116).  The two storage
reads and the records parse are followed by `.expect(...)`, so their
failures are panics, not returned errors.  (Named `open'` because `open` is
a Lean keyword.) -/
def open' (password : String) (path : Option String) (w : World) :
    Outcome VaultError Vault :=
  let algorithm := CHACHA20_POLY1305
  match determine_vault_path path w.env w.home with
  | .panicked m => .panicked m
  | .err e => .err e
  | .ok p =>
    match Configuration.from_file (config_path p) w with
    | .err e => .err e
    | .panicked m => .panicked m
    | .ok config =>
      match derive_key algorithm config.salt password with
      | .err e => .err (.keyError e)
      | .panicked m => .panicked m
      | .ok password_key =>
        let encryption_key_storage :=
          EncryptedStorage.new (encrypted_key_path p) password_key
        match encryption_key_storage.read w with
        | .err _ => .panicked "Should have opened DB correctly"
        | .panicked m => .panicked m
        | .ok encryption_key =>
          let record_storage := EncryptedStorage.new (storage_path p) encryption_key
          match record_storage.read_string w with
          | .err _ => .panicked "Should have read the json"
          | .panicked m => .panicked m
          | .ok record_json =>
            match recordsFromJson record_json with
            | none => .panicked "Should have deserialized from the json"
            | some records =>
              .ok ⟨p, config, record_storage, encryption_key_storage, records⟩

/-- `Vault::add_record` from `src/core/vault.rs` (lines 118-124): push the
record onto the in-memory vector, serialize the whole vector
(`serde_json::to_string(...).unwrap()` cannot fail) and write it through
the records storage, panicking via `expect` if the write fails. -/
def add_record (v : Vault) (record : Record) (w : World) :
    Outcome VaultError (Vault × World) :=
  let records := v.records ++ [record]
  let json := recordsToJson records
  match v.record_storage.write_string json w with
  | (.ok _, w') => .ok ({ v with records := records }, w')
  | (.err _, _) => .panicked "Should have written record_storage properly"
  | (.panicked m, _) => .panicked m

/-- `Vault::fetch_records`. -/
def fetch_records (v : Vault) : List Record :=
  v.records

/-- `Vault::get_records_by_name`: linear filter by exact name equality. -/
def get_records_by_name (v : Vault) (record_name : String) : List Record :=
  v.records.filter (fun record => record.name = record_name)

/-- `Vault::get_record_by_uuid`: first record (front to back) whose uuid
matches. -/
def get_record_by_uuid (v : Vault) (record_uuid : String) : Option Record :=
  v.records.find? (fun record => record.uuid = record_uuid)

/-- Run a sequence of `add_record` calls left to right. -/
def addRecords (v : Vault) (rs : List Record) (w : World) :
    Outcome VaultError (Vault × World) :=
  match rs with
  | [] => .ok (v, w)
  | r :: rest =>
    match v.add_record r w with
    | .ok (v', w') => addRecords v' rest w'
    | .err e => .err e
    | .panicked m => .panicked m

end Vault

end IronVault

namespace IronVault

open ByteEnc

/-- The bytes `seal_data` places on disk: nonce, then ciphertext, then tag. -/
def sealedBytes (algorithm : Algorithm) (key nonce pt : List Nat) : List Nat :=
  nonce ++ aeadEncrypt key nonce pt ++
    aeadTag algorithm.tag_len key nonce (aeadEncrypt key nonce pt)

theorem fsRead_fsWrite_self (files : List (String × List Nat)) (p : String)
    (b : List Nat) : fsRead (fsWrite files p b) p = some b := by
  simp [fsRead, fsWrite]

theorem fsRead_fsWrite_ne (files : List (String × List Nat)) {p q : String}
    (b : List Nat) (h : p ≠ q) : fsRead (fsWrite files q b) p = fsRead files p := by
  unfold fsRead fsWrite
  rw [List.find?_cons_of_neg _ (by simpa using fun hq => h hq.symm)]
  congr 1
  induction files with
  | nil => rfl
  | cons e rest ih =>
      by_cases he : e.1 = q
      · rw [List.filter_cons_of_neg (by simpa using he),
          List.find?_cons_of_neg _
            (by simp only [he, decide_eq_true_eq]; exact fun hq => h hq.symm)]
        exact ih
      · rw [List.filter_cons_of_pos (by simpa using he)]
        by_cases hp : e.1 = p
        · rw [List.find?_cons_of_pos _ (by simpa using hp),
            List.find?_cons_of_pos _ (by simpa using hp)]
        · rw [List.find?_cons_of_neg _ (by simpa using hp),
            List.find?_cons_of_neg _ (by simpa using hp)]
          exact ih

theorem pbkdf2_derive_length (digest : DigestAlg) (iters : Nat) (salt : List Nat)
    (secret : String) (out_len : Nat) :
    (pbkdf2_derive digest iters salt secret out_len).length = out_len := by
  cases out_len with
  | zero => rfl
  | succ n => simp [pbkdf2_derive]

theorem radixVal_replicate_zero (n : Nat) : radixVal (List.replicate n 0) = 0 := by
  induction n with
  | zero => rfl
  | succ m ih => simp [List.replicate, radixVal_cons, ih]

theorem pbkdf2_bytesToNat_inj {digest : DigestAlg} {i₁ i₂ n : Nat}
    {salt₁ salt₂ : List Nat} {p₁ p₂ : String}
    (h : bytesToNat (pbkdf2_derive digest i₁ salt₁ p₁ (n + 1)) =
      bytesToNat (pbkdf2_derive digest i₂ salt₂ p₂ (n + 1))) : p₁ = p₂ := by
  unfold bytesToNat pbkdf2_derive at h
  simp only [radixVal_cons, radixVal_replicate_zero, List.length_cons,
    List.length_replicate, Nat.zero_mul, Nat.zero_add] at h
  have h₂ := (Nat.pair_eq_pair.mp h).2
  have h₃ := (Nat.pair_eq_pair.mp h₂).2
  have h₄ := (Nat.pair_eq_pair.mp h₃).2
  have h₅ := (Nat.pair_eq_pair.mp h₄).2
  exact strToNat_inj h₅

theorem aeadTag_ne_of_key {t : Nat} {k₁ k₂ nonce ct : List Nat}
    (h : bytesToNat k₁ ≠ bytesToNat k₂) :
    aeadTag t k₁ nonce ct ≠ aeadTag t k₂ nonce ct := by
  unfold aeadTag
  intro heq
  exact h (Nat.pair_eq_pair.mp (List.head_eq_of_cons_eq heq)).1

end IronVault

namespace IronVault

open ByteEnc

theorem EncryptedStorage.write_eq (s : EncryptedStorage) (b : List Nat) (w : World)
    (hk : s.algorithm.key_len = s.key.length) (ht : 0 < s.algorithm.tag_len) :
    s.write b w = (.ok (), { w with
      files := fsWrite w.files s.path
        (sealedBytes s.algorithm s.key (randBytes w.seed s.algorithm.nonce_len) b),
      seed := w.seed + 1 }) := by
  have hnonce := randBytes_length w.seed s.algorithm.nonce_len
  have henc := aeadEncrypt_length s.key (randBytes w.seed s.algorithm.nonce_len) b
  have htag := aeadTag_length s.algorithm.tag_len s.key
    (randBytes w.seed s.algorithm.nonce_len)
    (aeadEncrypt s.key (randBytes w.seed s.algorithm.nonce_len) b) ht
  unfold EncryptedStorage.write write_encrypted seal_data generate_nonce
    verify_key_len append_tag_storage seal_in_place write_plaintext sealedBytes
  rw [if_neg (by omega)]
  simp only [hnonce, ne_eq, not_true_eq_false, if_false, ite_false, if_neg,
    List.length_append, List.length_replicate]
  have hpt : (b ++ List.replicate s.algorithm.tag_len 0).take
      (b.length + s.algorithm.tag_len - s.algorithm.tag_len) = b := by
    rw [Nat.add_sub_cancel]
    exact List.take_left' rfl
  rw [hpt]
  have htake : (randBytes w.seed s.algorithm.nonce_len ++
      (aeadEncrypt s.key (randBytes w.seed s.algorithm.nonce_len) b ++
        aeadTag s.algorithm.tag_len s.key (randBytes w.seed s.algorithm.nonce_len)
          (aeadEncrypt s.key (randBytes w.seed s.algorithm.nonce_len) b))).take
      (s.algorithm.nonce_len + (b.length + s.algorithm.tag_len)) =
      randBytes w.seed s.algorithm.nonce_len ++
      (aeadEncrypt s.key (randBytes w.seed s.algorithm.nonce_len) b ++
        aeadTag s.algorithm.tag_len s.key (randBytes w.seed s.algorithm.nonce_len)
          (aeadEncrypt s.key (randBytes w.seed s.algorithm.nonce_len) b)) := by
    apply List.take_all_of_le
    simp only [List.length_append, hnonce, henc, htag, le_refl]
  rw [if_neg (by omega)]
  simp only [hpt, htake, List.append_assoc]

end IronVault

namespace IronVault

open ByteEnc

theorem sealedBytes_assoc (algorithm : Algorithm) (key nonce pt : List Nat) :
    sealedBytes algorithm key nonce pt =
      nonce ++ (aeadEncrypt key nonce pt ++
        aeadTag algorithm.tag_len key nonce (aeadEncrypt key nonce pt)) := by
  simp [sealedBytes, List.append_assoc]

theorem open_data_sealed_core (algorithm : Algorithm) (key key1 nonce pt : List Nat)
    (hk : algorithm.key_len = key.length)
    (hn : nonce.length = algorithm.nonce_len)
    (ht : 0 < algorithm.tag_len) :
    open_data (sealedBytes algorithm key1 nonce pt) key algorithm =
      if aeadTag algorithm.tag_len key1 nonce (aeadEncrypt key1 nonce pt) =
          aeadTag algorithm.tag_len key nonce (aeadEncrypt key1 nonce pt) then
        .ok (aeadDecrypt key nonce (aeadEncrypt key1 nonce pt))
      else .err .decryptionError := by
  have henc := aeadEncrypt_length key1 nonce pt
  have htag := aeadTag_length algorithm.tag_len key1 nonce (aeadEncrypt key1 nonce pt) ht
  have hdata : (sealedBytes algorithm key1 nonce pt).length =
      algorithm.nonce_len + (pt.length + algorithm.tag_len) := by
    simp [sealedBytes, henc, htag, hn]
  have hkey : ¬ (algorithm.key_len ≠ key.length) := by omega
  have hpanic : ¬ ((sealedBytes algorithm key1 nonce pt).length < algorithm.nonce_len) := by
    omega
  have hshort : ¬ ((sealedBytes algorithm key1 nonce pt).length <
      algorithm.nonce_len + algorithm.tag_len) := by omega
  have htk : (sealedBytes algorithm key1 nonce pt).take algorithm.nonce_len = nonce := by
    rw [sealedBytes_assoc]
    exact List.take_left' hn
  have hdp : (sealedBytes algorithm key1 nonce pt).drop algorithm.nonce_len =
      aeadEncrypt key1 nonce pt ++
        aeadTag algorithm.tag_len key1 nonce (aeadEncrypt key1 nonce pt) := by
    rw [sealedBytes_assoc]
    exact List.drop_left' hn
  have hnn : ¬ (nonce.length ≠ algorithm.nonce_len) := by omega
  have hctlen : (aeadEncrypt key1 nonce pt ++
      aeadTag algorithm.tag_len key1 nonce (aeadEncrypt key1 nonce pt)).length -
      algorithm.tag_len = (aeadEncrypt key1 nonce pt).length := by
    simp [henc, htag]
  have hct2 : (aeadEncrypt key1 nonce pt ++
      aeadTag algorithm.tag_len key1 nonce (aeadEncrypt key1 nonce pt)).take
      (aeadEncrypt key1 nonce pt).length = aeadEncrypt key1 nonce pt :=
    List.take_left' rfl
  have hct3 : (aeadEncrypt key1 nonce pt ++
      aeadTag algorithm.tag_len key1 nonce (aeadEncrypt key1 nonce pt)).drop
      (aeadEncrypt key1 nonce pt).length =
      aeadTag algorithm.tag_len key1 nonce (aeadEncrypt key1 nonce pt) :=
    List.drop_left' rfl
  unfold open_data verify_key_len open_in_place
  simp only [hkey, hpanic, hshort, htk, hdp, hnn, hctlen, hct2, hct3,
    if_false, ite_false]
  by_cases heq : aeadTag algorithm.tag_len key1 nonce (aeadEncrypt key1 nonce pt) =
      aeadTag algorithm.tag_len key nonce (aeadEncrypt key1 nonce pt)
  · rw [if_pos heq, if_pos heq]
  · rw [if_neg heq, if_neg heq]

theorem open_data_sealed_same (algorithm : Algorithm) (key nonce pt : List Nat)
    (hk : algorithm.key_len = key.length)
    (hn : nonce.length = algorithm.nonce_len)
    (ht : 0 < algorithm.tag_len) :
    open_data (sealedBytes algorithm key nonce pt) key algorithm = .ok pt := by
  rw [open_data_sealed_core algorithm key key nonce pt hk hn ht, if_pos rfl,
    aeadDecrypt_aeadEncrypt]

theorem open_data_sealed_wrong_key (algorithm : Algorithm) (key key1 nonce pt : List Nat)
    (hk : algorithm.key_len = key.length)
    (hn : nonce.length = algorithm.nonce_len)
    (ht : 0 < algorithm.tag_len)
    (hne : bytesToNat key1 ≠ bytesToNat key) :
    open_data (sealedBytes algorithm key1 nonce pt) key algorithm =
      .err .decryptionError := by
  rw [open_data_sealed_core algorithm key key1 nonce pt hk hn ht,
    if_neg (aeadTag_ne_of_key hne)]

theorem EncryptedStorage.read_sealed (s : EncryptedStorage) (w : World)
    (nonce pt : List Nat)
    (hk : s.algorithm.key_len = s.key.length)
    (hn : nonce.length = s.algorithm.nonce_len)
    (ht : 0 < s.algorithm.tag_len)
    (hf : fsRead w.files s.path = some (sealedBytes s.algorithm s.key nonce pt)) :
    s.read w = .ok pt := by
  unfold EncryptedStorage.read read_encrypted read_plaintext
  rw [hf]
  exact open_data_sealed_same s.algorithm s.key nonce pt hk hn ht

theorem EncryptedStorage.read_sealed_wrong_key (s : EncryptedStorage) (w : World)
    (key1 nonce pt : List Nat)
    (hk : s.algorithm.key_len = s.key.length)
    (hn : nonce.length = s.algorithm.nonce_len)
    (ht : 0 < s.algorithm.tag_len)
    (hne : bytesToNat key1 ≠ bytesToNat s.key)
    (hf : fsRead w.files s.path = some (sealedBytes s.algorithm key1 nonce pt)) :
    s.read w = .err .decryptionError := by
  unfold EncryptedStorage.read read_encrypted read_plaintext
  rw [hf]
  exact open_data_sealed_wrong_key s.algorithm s.key key1 nonce pt hk hn ht hne

end IronVault

namespace IronVault

open ByteEnc

theorem vault_path_ne (d : String) {a b : String} (h : a.length ≠ b.length) :
    vault_path d a ≠ vault_path d b := by
  intro he
  have hlen := congrArg String.length he
  simp only [vault_path, String.length_append] at hlen
  omega

theorem config_path_ne_key_path (d : String) :
    config_path d ≠ encrypted_key_path d :=
  vault_path_ne d (by decide)

theorem config_path_ne_storage_path (d : String) :
    config_path d ≠ storage_path d :=
  vault_path_ne d (by decide)

theorem key_path_ne_storage_path (d : String) :
    encrypted_key_path d ≠ storage_path d :=
  vault_path_ne d (by decide)

theorem Vault.add_record_ok (v : Vault) (r : Record) (w : World)
    (hk : v.record_storage.algorithm.key_len = v.record_storage.key.length)
    (ht : 0 < v.record_storage.algorithm.tag_len) :
    v.add_record r w = .ok ({ v with records := v.records ++ [r] },
      { w with
        files := fsWrite w.files v.record_storage.path
          (sealedBytes v.record_storage.algorithm v.record_storage.key
            (randBytes w.seed v.record_storage.algorithm.nonce_len)
            (recordsToJson (v.records ++ [r]))),
        seed := w.seed + 1 }) := by
  simp only [Vault.add_record, EncryptedStorage.write_string]
  rw [EncryptedStorage.write_eq _ _ _ hk ht]

theorem Vault.addRecords_ok (v : Vault) (rs : List Record) (w : World)
    (hk : v.record_storage.algorithm.key_len = v.record_storage.key.length)
    (ht : 0 < v.record_storage.algorithm.tag_len) :
    ∃ v' w', Vault.addRecords v rs w = .ok (v', w') ∧
      v'.records = v.records ++ rs ∧ v'.record_storage = v.record_storage := by
  induction rs generalizing v w with
  | nil => exact ⟨v, w, rfl, by simp, rfl⟩
  | cons r rest ih =>
      have hstep := Vault.add_record_ok v r w hk ht
      obtain ⟨v', w', hrun, hrec, hsto⟩ :=
        ih { v with records := v.records ++ [r] } _ hk ht
      refine ⟨v', w', ?_, ?_, by simpa using hsto⟩
      · unfold Vault.addRecords
        rw [hstep]
        exact hrun
      · simpa [List.append_assoc] using hrec

end IronVault

namespace IronVault

open ByteEnc

theorem Vault.create_some_eq (p1 d : String) (w : World) (i1 : Nat)
    (hd : d ∉ w.dirs) (hi1 : iterations p1 = some i1) :
    Vault.create p1 (some d) w =
      (.ok ⟨d, ⟨randBytes w.seed SALT_LEN⟩,
        EncryptedStorage.new (storage_path d) (randBytes (w.seed + 1) 32),
        EncryptedStorage.new (encrypted_key_path d)
          (pbkdf2_derive SHA256 i1 (randBytes w.seed SALT_LEN) p1 32), []⟩,
       { files := fsWrite (fsWrite (fsWrite w.files (config_path d)
              [bytesToNat (randBytes w.seed SALT_LEN)])
            (encrypted_key_path d)
            (sealedBytes CHACHA20_POLY1305
              (pbkdf2_derive SHA256 i1 (randBytes w.seed SALT_LEN) p1 32)
              (randBytes (w.seed + 2) 12) (randBytes (w.seed + 1) 32)))
          (storage_path d)
          (sealedBytes CHACHA20_POLY1305 (randBytes (w.seed + 1) 32)
            (randBytes (w.seed + 3) 12) (recordsToJson [])),
         dirs := d :: w.dirs, env := w.env, home := w.home,
         seed := w.seed + 4 }) := by
  have hs4 : ¬ ((randBytes w.seed SALT_LEN).length ≤ 4) := by
    rw [randBytes_length]
    decide
  have hkek : (pbkdf2_derive SHA256 i1 (randBytes w.seed SALT_LEN) p1 32).length = 32 :=
    pbkdf2_derive_length _ _ _ _ _
  have hdek : (randBytes (w.seed + 1) 32).length = 32 := randBytes_length _ _
  simp only [Vault.create, create_vault_directory, determine_vault_path,
    create_vault_configuration, Configuration.save_to, Configuration.to_json,
    derive_key, generate_key, hd, if_false, ite_false, hs4, hi1]
  rw [EncryptedStorage.write_eq _ _ _ (by simp [EncryptedStorage.new, CHACHA20_POLY1305, hkek])
    (by simp [EncryptedStorage.new, CHACHA20_POLY1305])]
  simp only []
  rw [EncryptedStorage.write_eq _ _ _ (by simp [EncryptedStorage.new, CHACHA20_POLY1305, hdek])
    (by simp [EncryptedStorage.new, CHACHA20_POLY1305])]
  simp [EncryptedStorage.new, CHACHA20_POLY1305]

end IronVault

namespace IronVault

open ByteEnc

/-- A 32-byte (all-zero) CHACHA20_POLY1305 key used in concrete scenarios. -/
def sampleKey : List Nat := List.replicate 32 0

/-- A concrete opened vault (empty record list, 32-byte keys). -/
def sampleVault : Vault :=
  ⟨"v", ⟨List.replicate 16 0⟩, EncryptedStorage.new "v/storage" sampleKey,
    EncryptedStorage.new "v/key" sampleKey, []⟩

/-- A concrete world in which the directory of `sampleVault` exists. -/
def sampleWorld : World := ⟨[], ["v"], [], none, 0⟩

/-- Two records sharing one uuid but differing in name. -/
def recA : Record := ⟨"u", "a", .login, []⟩

/-- See `recA`. -/
def recB : Record := ⟨"u", "b", .login, []⟩

/-- The in-memory record list after a run of `addRecords`, or `[]` if the
run did not return `Ok`. -/
def storedRecords (o : Outcome VaultError (Vault × World)) : List Record :=
  match o with
  | .ok (v, _) => v.records
  | _ => []

/-- C1: refuted at a concrete input.  Adding two records with equal uuids
leaves BOTH in the collection (in order), because `add_record` pushes onto a
`Vec` and never keys by uuid: after the two calls the stored records do not
have pairwise distinct uuids and the first record was not replaced. -/
theorem C1_counterexample :
    storedRecords (Vault.addRecords sampleVault [recA, recB] sampleWorld) =
      [recA, recB] ∧ recA.uuid = recB.uuid ∧ recA ≠ recB := by
  refine ⟨by decide, rfl, by decide⟩

/-- C1 (amended): `add_record` appends each record to the in-memory vector;
every successfully added record is retained, records with duplicate uuids
included, so after any sequence of `add_record` calls the stored list is
the original list followed by the inserted records in call order. -/
theorem C1_add_record_appends (v : Vault) (rs : List Record) (w : World)
    (hk : v.record_storage.algorithm.key_len = v.record_storage.key.length)
    (ht : 0 < v.record_storage.algorithm.tag_len) :
    ∃ v' w', Vault.addRecords v rs w = .ok (v', w') ∧
      v'.records = v.records ++ rs := by
  obtain ⟨v', w', h1, h2, _⟩ := Vault.addRecords_ok v rs w hk ht
  exact ⟨v', w', h1, h2⟩

/-- Witness for C1: the amended statement at a concrete vault and record. -/
theorem C1_add_record_appends_witness :
    ∃ v' w', Vault.addRecords sampleVault [recA] sampleWorld = .ok (v', w') ∧
      v'.records = sampleVault.records ++ [recA] :=
  C1_add_record_appends sampleVault [recA] sampleWorld (by decide) (by decide)

/-- C10: `fetch_records` returns the stored records in insertion order, and
`get_record_by_uuid` scans the vector front to back, so when two stored
records share a uuid the first-added one is returned. -/
theorem C10_queries_in_insertion_order (v : Vault) (r1 r2 : Record) (w : World)
    (hk : v.record_storage.algorithm.key_len = v.record_storage.key.length)
    (ht : 0 < v.record_storage.algorithm.tag_len)
    (hu : r2.uuid = r1.uuid)
    (hfresh : ∀ r ∈ v.records, r.uuid ≠ r1.uuid) :
    ∃ v2 w2, Vault.addRecords v [r1, r2] w = .ok (v2, w2) ∧
      v2.fetch_records = v.records ++ [r1, r2] ∧
      v2.get_record_by_uuid r1.uuid = some r1 := by
  obtain ⟨v2, w2, h1, h2, _⟩ := Vault.addRecords_ok v [r1, r2] w hk ht
  refine ⟨v2, w2, h1, h2, ?_⟩
  unfold Vault.get_record_by_uuid
  rw [h2, List.find?_append]
  have hnone : v.records.find? (fun record => record.uuid = r1.uuid) = none :=
    List.find?_eq_none.mpr (by
      intro x hx
      simpa using hfresh x hx)
  rw [hnone]
  simp

/-- Witness for C10: the statement at two concrete same-uuid records. -/
theorem C10_queries_witness :
    ∃ v2 w2, Vault.addRecords sampleVault [recA, recB] sampleWorld = .ok (v2, w2) ∧
      v2.fetch_records = sampleVault.records ++ [recA, recB] ∧
      v2.get_record_by_uuid recA.uuid = some recA :=
  C10_queries_in_insertion_order sampleVault recA recB sampleWorld
    (by decide) (by decide) rfl (by decide)

/-- C3: the code panics instead of returning `DecryptionError` on a too-
short file.  Reading a 0-byte file with a 32-byte key panics at the slice
`data[..nonce_len]` in `open_data` (contradicting the function's own doc
comment, which promises `DecryptionError` when the file is too short to
hold the nonce); only files of at least 12 bytes — such as the 20-byte file
in the second conjunct — produce the documented `DecryptionError`. -/
theorem C3_short_file_read :
    (EncryptedStorage.new "f" sampleKey).read ⟨[("f", [])], [], [], none, 0⟩ =
      .panicked "range end index out of range for slice" ∧
    (EncryptedStorage.new "f" sampleKey).read
        ⟨[("f", List.replicate 20 0)], [], [], none, 0⟩ =
      .err .decryptionError := by
  constructor
  · decide
  · decide

/-- C4: writing any byte sequence through `EncryptedStorage::write` with a
32-byte key and reading it back with the same key returns exactly the
original bytes. -/
theorem C4_roundtrip (path : String) (key b : List Nat) (w : World)
    (hk : key.length = 32) :
    ((EncryptedStorage.new path key).write b w).1 = .ok () ∧
      (EncryptedStorage.new path key).read
        ((EncryptedStorage.new path key).write b w).2 = .ok b := by
  rw [EncryptedStorage.write_eq _ _ _
    (by simp [EncryptedStorage.new, CHACHA20_POLY1305, hk])
    (by simp [EncryptedStorage.new, CHACHA20_POLY1305])]
  refine ⟨rfl, ?_⟩
  apply EncryptedStorage.read_sealed _ _
    (randBytes w.seed (EncryptedStorage.new path key).algorithm.nonce_len) b
  · simp [EncryptedStorage.new, CHACHA20_POLY1305, hk]
  · simp [randBytes_length]
  · simp [EncryptedStorage.new, CHACHA20_POLY1305]
  · show fsRead (fsWrite w.files (EncryptedStorage.new path key).path _)
      (EncryptedStorage.new path key).path = _
    rw [fsRead_fsWrite_self]

/-- Witness for C4: the round trip at a concrete key, payload and world. -/
theorem C4_roundtrip_witness :
    ((EncryptedStorage.new "f" sampleKey).write [1, 2, 3] ⟨[], [], [], none, 0⟩).1 =
      .ok () ∧
    (EncryptedStorage.new "f" sampleKey).read
      ((EncryptedStorage.new "f" sampleKey).write [1, 2, 3] ⟨[], [], [], none, 0⟩).2 =
      .ok [1, 2, 3] :=
  C4_roundtrip "f" sampleKey [1, 2, 3] ⟨[], [], [], none, 0⟩ (by decide)

/-- C6: a successful `EncryptedStorage::write` of N bytes with a 32-byte
key produces a file whose bytes are exactly the freshly drawn 12-byte
nonce, followed by the N-byte AEAD ciphertext of the payload under that
key and nonce, followed by the 16-byte AEAD tag over that ciphertext
(empty associated data), for a total of N + 28 bytes. -/
theorem C6_envelope (path : String) (key b : List Nat) (w : World)
    (hk : key.length = 32) :
    ((EncryptedStorage.new path key).write b w).1 = .ok () ∧
    fsRead ((EncryptedStorage.new path key).write b w).2.files path =
      some (randBytes w.seed 12 ++ aeadEncrypt key (randBytes w.seed 12) b ++
        aeadTag 16 key (randBytes w.seed 12) (aeadEncrypt key (randBytes w.seed 12) b)) ∧
    (randBytes w.seed 12).length = 12 ∧
    (aeadEncrypt key (randBytes w.seed 12) b).length = b.length ∧
    (aeadTag 16 key (randBytes w.seed 12)
      (aeadEncrypt key (randBytes w.seed 12) b)).length = 16 ∧
    (randBytes w.seed 12 ++ aeadEncrypt key (randBytes w.seed 12) b ++
      aeadTag 16 key (randBytes w.seed 12)
        (aeadEncrypt key (randBytes w.seed 12) b)).length = b.length + 28 := by
  rw [EncryptedStorage.write_eq _ _ _
    (by simp [EncryptedStorage.new, CHACHA20_POLY1305, hk])
    (by simp [EncryptedStorage.new, CHACHA20_POLY1305])]
  refine ⟨rfl, ?_, randBytes_length _ _, aeadEncrypt_length _ _ _,
    aeadTag_length _ _ _ _ (by norm_num), ?_⟩
  · show fsRead (fsWrite w.files (EncryptedStorage.new path key).path _) path = _
    simp only [EncryptedStorage.new]
    rw [fsRead_fsWrite_self]
    rfl
  · simp [List.length_append, randBytes_length, aeadEncrypt_length, aeadTag_length]
    omega

/-- Witness for C6: the byte-exact envelope at a concrete write. -/
theorem C6_envelope_witness :
    ((EncryptedStorage.new "f" sampleKey).write [5, 6] ⟨[], [], [], none, 0⟩).1 =
      .ok () ∧
    fsRead ((EncryptedStorage.new "f" sampleKey).write [5, 6]
        ⟨[], [], [], none, 0⟩).2.files "f" =
      some (randBytes 0 12 ++ aeadEncrypt sampleKey (randBytes 0 12) [5, 6] ++
        aeadTag 16 sampleKey (randBytes 0 12)
          (aeadEncrypt sampleKey (randBytes 0 12) [5, 6])) ∧
    (randBytes 0 12).length = 12 ∧
    (aeadEncrypt sampleKey (randBytes 0 12) [5, 6]).length =
      ([5, 6] : List Nat).length ∧
    (aeadTag 16 sampleKey (randBytes 0 12)
      (aeadEncrypt sampleKey (randBytes 0 12) [5, 6])).length = 16 ∧
    (randBytes 0 12 ++ aeadEncrypt sampleKey (randBytes 0 12) [5, 6] ++
      aeadTag 16 sampleKey (randBytes 0 12)
        (aeadEncrypt sampleKey (randBytes 0 12) [5, 6])).length =
      ([5, 6] : List Nat).length + 28 :=
  C6_envelope "f" sampleKey [5, 6] ⟨[], [], [], none, 0⟩ (by decide)

/-- C5: the iteration formula yields exactly the base count on the password
"abl" (whose truncated `DefaultHasher` value is a multiple of 10 000), so
the `assert!(iterations > ITERATIONS_BASE_COUNT)` in `iterations` fails —
modelled as `none` — contradicting the claimed post-condition that the
assertion never fails. -/
theorem C5_iterations_assert_fails :
    iterations "abl" = none ∧
      ITERATIONS_BASE_COUNT +
        SipHash.defaultHash "abl" % 4294967296 % ITERATIONS_EXTENSION_COUNT =
        ITERATIONS_BASE_COUNT := by
  constructor
  · decide
  · decide

/-- C7: refuted at a concrete input.  With a 16-byte salt (well above the
4-byte bound) and the password "abl", `derive_key` returns no derived key:
it panics inside `iterations` before PBKDF2 runs. -/
theorem C7_counterexample :
    4 < (List.replicate 16 7 : List Nat).length ∧
    derive_key CHACHA20_POLY1305 (List.replicate 16 7) "abl" =
      .panicked "assertion failed: iterations > ITERATIONS_BASE_COUNT" := by
  constructor
  · decide
  · decide

/-- C7 (amended): `derive_key` returns `SaltLengthError` exactly when the
salt is at most 4 bytes long; for longer salts it returns the
PBKDF2-HMAC-SHA256 key of length `algorithm.key_len()` — except for
passwords on which the iteration-count assertion fails, where it panics
instead (see the counterexample). -/
theorem C7_salt_bound (algorithm : Algorithm) (salt : List Nat)
    (password : String) (iters : Nat) :
    (derive_key algorithm salt password = .err .saltLengthError ↔
      salt.length ≤ 4) ∧
    (4 < salt.length → iterations password = some iters →
      derive_key algorithm salt password =
        .ok (pbkdf2_derive SHA256 iters salt password algorithm.key_len) ∧
      (pbkdf2_derive SHA256 iters salt password algorithm.key_len).length =
        algorithm.key_len) := by
  constructor
  · constructor
    · intro h
      by_contra hlen
      unfold derive_key at h
      rw [if_neg hlen] at h
      cases hit : iterations password with
      | none => rw [hit] at h; cases h
      | some i => rw [hit] at h; cases h
    · intro h
      unfold derive_key
      rw [if_pos h]
  · intro h4 hit
    unfold derive_key
    rw [if_neg (by omega), hit]
    exact ⟨rfl, pbkdf2_derive_length _ _ _ _ _⟩

/-- Witness for C7: the amended statement at a concrete salt and password
("pw" hashes to 9 924 extra iterations). -/
theorem C7_salt_bound_witness :
    derive_key CHACHA20_POLY1305 (List.replicate 16 7) "pw" =
      .ok (pbkdf2_derive SHA256 109924 (List.replicate 16 7) "pw"
        CHACHA20_POLY1305.key_len) ∧
    (pbkdf2_derive SHA256 109924 (List.replicate 16 7) "pw"
      CHACHA20_POLY1305.key_len).length = CHACHA20_POLY1305.key_len :=
  (C7_salt_bound CHACHA20_POLY1305 (List.replicate 16 7) "pw" 109924).2
    (by decide) (by decide)

/-- C8: refuted at a concrete input.  With no explicit path and
`IRONVAULT_DATABASE` set to the empty string, `determine_vault_path`
returns the empty string rather than falling through to the home-directory
default: `env::var` succeeds for any set variable, and the code never
checks for emptiness. -/
theorem C8_counterexample :
    determine_vault_path none [(ENVIRONMENT_KEY, "")] (some "/home/user") =
      .ok "" ∧
    ("" : String) ≠ "/home/user" ++ DEFAULT_DATABASE_PATH := by
  constructor
  · decide
  · decide

/-- C8 (amended): three-tier precedence where tier 2 requires only that the
variable is set (an empty value is used as-is): the explicit argument wins;
otherwise any set `IRONVAULT_DATABASE` value is returned; otherwise the
home directory with `/.ironvault/` appended. -/
theorem C8_path_resolution (p v h : String) (env : List (String × String))
    (home : Option String) :
    determine_vault_path (some p) env home = .ok p ∧
    (envVar env ENVIRONMENT_KEY = some v →
      determine_vault_path none env home = .ok v) ∧
    (envVar env ENVIRONMENT_KEY = none →
      determine_vault_path none env (some h) = .ok (h ++ DEFAULT_DATABASE_PATH)) := by
  refine ⟨rfl, ?_, ?_⟩
  · intro he
    unfold determine_vault_path
    rw [he]
  · intro he
    unfold determine_vault_path
    rw [he]

/-- Witness for C8: the three tiers at concrete environments. -/
theorem C8_path_resolution_witness :
    determine_vault_path (some "x") [] none = .ok "x" ∧
    determine_vault_path none [(ENVIRONMENT_KEY, "e")] none = .ok "e" ∧
    determine_vault_path none [] (some "/h") =
      .ok ("/h" ++ DEFAULT_DATABASE_PATH) :=
  ⟨(C8_path_resolution "x" "e" "/h" [] none).1,
    (C8_path_resolution "x" "e" "/h" [(ENVIRONMENT_KEY, "e")] none).2.1 (by decide),
    (C8_path_resolution "x" "e" "/h" [] none).2.2 (by decide)⟩

/-- C9: `Vault::create` on a path whose resolved vault directory already
exists returns `VaultAlreadyExists` and leaves the world — files, dirs,
environment and RNG — completely unchanged: the existence check runs
before any file is written. -/
theorem C9_create_existing_dir (password : String) (path : Option String)
    (w : World) (p : String)
    (hres : determine_vault_path path w.env w.home = .ok p)
    (hex : p ∈ w.dirs) :
    Vault.create password path w = (.err .vaultAlreadyExists, w) := by
  simp only [Vault.create, create_vault_directory, hres, hex, if_true, ite_true]

/-- Witness for C9: creating over the existing directory of `sampleWorld`. -/
theorem C9_create_existing_dir_witness :
    Vault.create "pw" (some "v") sampleWorld = (.err .vaultAlreadyExists, sampleWorld) :=
  C9_create_existing_dir "pw" (some "v") sampleWorld "v" rfl (by decide)

end IronVault

namespace IronVault

open ByteEnc

theorem pbkdf2_bytesToNat_inj_len {digest : DigestAlg} {i₁ i₂ len : Nat}
    {salt₁ salt₂ : List Nat} {p₁ p₂ : String} (hlen : 0 < len)
    (h : bytesToNat (pbkdf2_derive digest i₁ salt₁ p₁ len) =
      bytesToNat (pbkdf2_derive digest i₂ salt₂ p₂ len)) : p₁ = p₂ := by
  cases len with
  | zero => omega
  | succ n => exact pbkdf2_bytesToNat_inj h

/-- C2: opening a vault with a passphrase other than the creation
passphrase does make the MAC check on the wrapped-key blob fail with
`DecryptionError`, but `Vault::open` does not return that error wrapped in
`VaultStorageError`: the `.expect("Should have opened DB correctly")` on
the storage read turns it into a panic.  (The side conditions require both
passphrases to survive the `iterations` assertion; `d ∉ w.dirs` makes the
creation succeed.) -/
theorem C2_wrong_passphrase_panics (p1 p2 d : String) (w : World)
    (hd : d ∉ w.dirs)
    (hi1 : iterations p1 ≠ none)
    (hi2 : iterations p2 ≠ none)
    (hne : p2 ≠ p1) :
    Vault.open' p2 (some d) (Vault.create p1 (some d) w).2 =
      .panicked "Should have opened DB correctly" := by
  obtain ⟨i1, hi1e⟩ := Option.ne_none_iff_exists'.mp hi1
  obtain ⟨i2, hi2e⟩ := Option.ne_none_iff_exists'.mp hi2
  rw [Vault.create_some_eq p1 d w i1 hd hi1e]
  set salt := randBytes w.seed SALT_LEN with hsalt
  set kek := pbkdf2_derive SHA256 i1 salt p1 32 with hkek
  set dek := randBytes (w.seed + 1) 32 with hdek
  set n1 := randBytes (w.seed + 2) 12 with hn1
  set n2 := randBytes (w.seed + 3) 12 with hn2
  have hs4 : ¬ (salt.length ≤ 4) := by
    rw [hsalt, randBytes_length]
    decide
  simp only [Vault.open', determine_vault_path, Configuration.from_file]
  rw [fsRead_fsWrite_ne _ _ (config_path_ne_storage_path d),
    fsRead_fsWrite_ne _ _ (config_path_ne_key_path d),
    fsRead_fsWrite_self]
  simp only [Configuration.from_json]
  rw [natToBytes_bytesToNat salt (by rw [hsalt]; exact randBytes_lt _ _)]
  have hklen : CHACHA20_POLY1305.key_len = 32 := rfl
  simp only [derive_key, hs4, if_false, ite_false, hi2e, hklen]
  have hread : (EncryptedStorage.new (encrypted_key_path d)
      (pbkdf2_derive SHA256 i2 salt p2 32)).read
      ⟨fsWrite (fsWrite (fsWrite w.files (config_path d) [bytesToNat salt])
          (encrypted_key_path d) (sealedBytes CHACHA20_POLY1305 kek n1 dek))
        (storage_path d) (sealedBytes CHACHA20_POLY1305 dek n2 (recordsToJson [])),
        d :: w.dirs, w.env, w.home, w.seed + 4⟩ = .err .decryptionError := by
    apply EncryptedStorage.read_sealed_wrong_key _ _ kek n1 dek
    · simp [EncryptedStorage.new, CHACHA20_POLY1305, pbkdf2_derive_length]
    · simp [EncryptedStorage.new, CHACHA20_POLY1305, hn1, randBytes_length]
    · simp [EncryptedStorage.new, CHACHA20_POLY1305]
    · intro hEq
      rw [hkek] at hEq
      exact hne (pbkdf2_bytesToNat_inj_len (by norm_num) hEq).symm
    · show fsRead _ (EncryptedStorage.new (encrypted_key_path d)
        (pbkdf2_derive SHA256 i2 salt p2 32)).path = _
      simp only [EncryptedStorage.new]
      rw [fsRead_fsWrite_ne _ _ (key_path_ne_storage_path d), fsRead_fsWrite_self]
  simp only [hread]

end IronVault

namespace IronVault

/-- Witness for C2: creating a vault with "pw1" in an empty world and
opening it with "pw2" panics at the expect on the wrapped-key read. -/
theorem C2_wrong_passphrase_panics_witness :
    Vault.open' "pw2" (some "v")
      (Vault.create "pw1" (some "v") ⟨[], [], [], none, 0⟩).2 =
      .panicked "Should have opened DB correctly" :=
  C2_wrong_passphrase_panics "pw1" "pw2" "v" ⟨[], [], [], none, 0⟩
    (by decide) (by decide) (by decide) (by decide)

end IronVault
